import Mathlib

/-!
Verification of the flow-log analysis pipeline in `flow_log_parser.py`.

The Python class `FlowLogAnalyzer` is shallowly embedded below.  Python
dictionaries become insertion-ordered association lists (`Dict`), Python
exceptions become `Except String`, file contents become explicit lists of
rows or lines, and the numeric conversions (`int(...)`, `str.isdigit`,
`str.lower`, `str.split`) are modelled on their ASCII behaviour, which is
the behaviour exercised by the program's own data formats.
-/

namespace FlowLog

/-- A Python `dict`, modelled as an insertion-ordered association list.
Assignment to an existing key replaces the value in place; assignment to a
fresh key appends the binding at the end. -/
abbrev Dict (κ ν : Type) : Type := List (κ × ν)

/-- Dictionary lookup `d.get(k)`: the value stored at the first (for a
well-formed dict, unique) binding of `k`, if any. -/
def dget {κ ν : Type} [DecidableEq κ] : Dict κ ν → κ → Option ν
  | [], _ => none
  | (k1, v1) :: rest, k => if k = k1 then some v1 else dget rest k

/-- Dictionary assignment `d[k] = v`. -/
def dset {κ ν : Type} [DecidableEq κ] : Dict κ ν → κ → ν → Dict κ ν
  | [], k, v => [(k, v)]
  | (k1, v1) :: rest, k, v =>
    if k = k1 then (k1, v) :: rest else (k1, v1) :: dset rest k v

/-- Counter increment `d[k] += 1` on a `defaultdict(int)` (a missing key
reads as `0`). -/
def dincr {κ : Type} [DecidableEq κ] : Dict κ Nat → κ → Dict κ Nat
  | [], k => [(k, 1)]
  | (k1, v1) :: rest, k =>
    if k = k1 then (k1, v1 + 1) :: rest else (k1, v1) :: dincr rest k

/-- Sum of all counts stored in a counter dictionary. -/
def dsum {κ : Type} (d : Dict κ Nat) : Nat := (d.map Prod.snd).sum

/-- ASCII action of Python's per-character lower-casing: `A`–`Z` (code
points 65–90) map 32 code points up; everything else is unchanged.  The
program only ever lower-cases protocol tokens such as `"TCP"` or `"6"`. -/
def lowerChar (c : Char) : Char :=
  if 65 ≤ c.toNat ∧ c.toNat ≤ 90 then Char.ofNat (c.toNat + 32) else c

/-- Python `s.lower()` (ASCII fragment). -/
def pyLower (s : String) : String := ⟨s.data.map lowerChar⟩

/-- Python `s.isdigit()` (ASCII fragment): nonempty and all characters are
decimal digits (code points 48–57). -/
def pyIsDigit (s : String) : Bool :=
  !s.data.isEmpty && s.data.all (fun c => 48 ≤ c.toNat && c.toNat ≤ 57)

/-- Value of a run of decimal digits, `none` as soon as a non-digit
occurs. -/
def digitsVal : List Char → Nat → Option Nat
  | [], acc => some acc
  | c :: cs, acc =>
    if 48 ≤ c.toNat ∧ c.toNat ≤ 57 then digitsVal cs (acc * 10 + (c.toNat - 48))
    else none

/-- Nonempty all-digit character run, as a number. -/
def parseDigits (cs : List Char) : Option Nat :=
  if cs.isEmpty then none else digitsVal cs 0

/-- Python `int(s)` on a whitespace-free token: an optional sign followed
by a nonempty digit run; anything else raises `ValueError` (here:
`none`). -/
def pyInt (s : String) : Option Int :=
  match s.data with
  | '-' :: cs => (parseDigits cs).map (fun n => -(n : Int))
  | '+' :: cs => (parseDigits cs).map (fun n => (n : Int))
  | cs => (parseDigits cs).map (fun n => (n : Int))

/-- Python whitespace characters recognised by `str.split()` (ASCII
fragment): space, tab, newline, carriage return, vertical tab, form
feed. -/
def pySpace (c : Char) : Bool :=
  c.toNat = 32 || c.toNat = 9 || c.toNat = 10 || c.toNat = 13 ||
    c.toNat = 11 || c.toNat = 12

/-- Worker for `splitWs`: accumulates the current word (reversed). -/
def splitWsAux : List Char → List Char → List String
  | [], acc => if acc.isEmpty then [] else [⟨acc.reverse⟩]
  | c :: cs, acc =>
    if pySpace c then
      if acc.isEmpty then splitWsAux cs []
      else (⟨acc.reverse⟩ : String) :: splitWsAux cs []
    else splitWsAux cs (c :: acc)

/-- `line.strip().split()`: split on runs of whitespace, dropping empty
tokens.  (`split()` with no separator already ignores leading and trailing
whitespace, so the `strip()` is absorbed.) -/
def splitWs (s : String) : List String := splitWsAux s.data []

/-- `FlowLogAnalyzer.DEFAULT_PROTOCOL_MAP`: the built-in IANA protocol
numbers. -/
def DEFAULT_PROTOCOL_MAP : Dict String String :=
  [("6", "tcp"), ("17", "udp"), ("1", "icmp")]

/-- `FlowLogAnalyzer.MIN_FIELDS`. -/
def MIN_FIELDS : Nat := 14

/-- One row of the optional `protocol_mappings.csv` file, as produced by
`csv.DictReader` (further columns are ignored by the program). -/
structure ProtoRow where
  protocol_number : String
  protocol_name : String

/-- `FlowLogAnalyzer._load_protocol_mappings`.  The argument models the
external file: `none` when the file does not exist, `some (.error e)` when
reading it raises, `some (.ok rows)` when it parses.  On success each row
contributes the two entries number→name and name→name to a map that starts
empty; on a read error the built-in map is returned after a warning (the
warning itself is I/O and outside the embedding). -/
def loadProtocolMappings : Option (Except String (List ProtoRow)) → Dict String String
  | none => DEFAULT_PROTOCOL_MAP
  | some (Except.error _) => DEFAULT_PROTOCOL_MAP
  | some (Except.ok rows) =>
    rows.foldl
      (fun m r => dset (dset m r.protocol_number r.protocol_name)
        r.protocol_name r.protocol_name)
      []

/-- `FlowLogAnalyzer._normalize_protocol`:
`self.protocol_map.get(protocol.lower(), protocol.lower())`. -/
def normalizeProtocol (pm : Dict String String) (p : String) : String :=
  (dget pm (pyLower p)).getD (pyLower p)

/-- One row of the lookup csv file (columns `dstport`, `protocol`,
`tag`). -/
structure LookupRow where
  dstport : String
  protocol : String
  tag : String

/-- `FlowLogAnalyzer._load_lookup_file`: each row's port must parse as an
integer (otherwise the whole load fails), the protocol token is normalised
through the active protocol map, and the binding is written with plain
dictionary assignment, so a later row overwrites an earlier row with the
same key. -/
def loadLookupFile (pm : Dict String String) :
    List LookupRow → Dict (Int × String) String →
      Except String (Dict (Int × String) String)
  | [], m => Except.ok m
  | r :: rs, m =>
    match pyInt r.dstport with
    | none => Except.error ("Invalid data in lookup file: " ++ r.dstport)
    | some port =>
      loadLookupFile pm rs (dset m (port, normalizeProtocol pm r.protocol) r.tag)

/-- `FlowLogAnalyzer._parse_flow_log_line`.  Note two details of the
source: the protocol-recognition test is a membership test on
`self.DEFAULT_PROTOCOL_MAP` (whose keys are `"6"`, `"17"`, `"1"`), not on
`self.protocol_map`; and every `ValueError` raised inside the inner `try`
(port range, unsupported protocol, failed `int()`) is re-raised wrapped in
`"Invalid field value: ..."`.  The `IndexError` branch of the source is
unreachable because the length check guarantees at least 14 fields. -/
def parseFlowLogLine (pm : Dict String String) (line : String) :
    Except String (Int × String) :=
  let fields := splitWs line
  if fields.length < MIN_FIELDS then
    Except.error ("Line has insufficient fields: " ++ toString fields.length ++
      ", minimum required: " ++ toString MIN_FIELDS)
  else if fields.getD 0 "" ≠ "2" then
    Except.error "Only version 2 flow logs are supported"
  else
    match pyInt (fields.getD 6 "") with
    | none =>
      Except.error ("Invalid field value: invalid literal for int: " ++
        fields.getD 6 "")
    | some dstPort =>
      if dstPort < 0 ∨ 65535 < dstPort then
        Except.error ("Invalid field value: Invalid destination port number: " ++
          toString dstPort)
      else
        let protocol := fields.getD 7 ""
        if ¬ pyIsDigit protocol ∧ dget DEFAULT_PROTOCOL_MAP (pyLower protocol) = none then
          Except.error ("Invalid field value: Unsupported protocol: " ++ protocol)
        else
          Except.ok (dstPort, normalizeProtocol pm protocol)

/-- `self.tag_mappings.get((dst_port, protocol), 'Untagged')`. -/
def classify (tm : Dict (Int × String) String) (k : Int × String) : String :=
  (dget tm k).getD "Untagged"

/-- The body of the per-line loop of `FlowLogAnalyzer.analyze_logs`: a line
that fails to parse is skipped with a warning (stderr I/O, outside the
embedding); a line that parses bumps both counters by one. -/
def analyzeStep (pm : Dict String String) (tm : Dict (Int × String) String)
    (st : Dict String Nat × Dict (Int × String) Nat) (line : String) :
    Dict String Nat × Dict (Int × String) Nat :=
  match parseFlowLogLine pm line with
  | Except.error _ => st
  | Except.ok key => (dincr st.1 (classify tm key), dincr st.2 key)

/-- `FlowLogAnalyzer.analyze_logs` on the file's lines (the 10MB size
admission check and the file I/O wrap this loop and are outside the
embedding). -/
def analyzeLogs (pm : Dict String String) (tm : Dict (Int × String) String)
    (lines : List String) : Dict String Nat × Dict (Int × String) Nat :=
  lines.foldl (analyzeStep pm tm) ([], [])

/-- Comparison by image in a linearly ordered type: the tool for modelling
Python's `sorted`, which sorts key/count tuples lexicographically. -/
def pullbackLe {α β : Type} [LinearOrder β] (g : α → β) (a b : α) : Prop :=
  g a ≤ g b

instance {α β : Type} [LinearOrder β] (g : α → β) : DecidableRel (pullbackLe g) :=
  fun a b => inferInstanceAs (Decidable (g a ≤ g b))

/-- A `(tag, count)` item viewed in the lexicographic order Python uses to
compare 2-tuples. -/
def tagProj (p : String × Nat) : Lex (String × Nat) := toLex p

/-- A `((port, protocol), count)` item viewed in the lexicographic order
Python uses to compare nested tuples: port, then protocol, then count. -/
def comboProj (p : (Int × String) × Nat) : Lex (Lex (Int × String) × Nat) :=
  toLex (toLex p.1, p.2)

/-- Python's `sorted` order on `tag_counts.items()`. -/
def tagItemLe : (String × Nat) → (String × Nat) → Prop := pullbackLe tagProj

/-- Python's `sorted` order on `combo_counts.items()`. -/
def comboItemLe : ((Int × String) × Nat) → ((Int × String) × Nat) → Prop :=
  pullbackLe comboProj

instance : DecidableRel tagItemLe :=
  fun a b => inferInstanceAs (Decidable (tagProj a ≤ tagProj b))

instance : DecidableRel comboItemLe :=
  fun a b => inferInstanceAs (Decidable (comboProj a ≤ comboProj b))

/-- `sorted(tag_counts.items())`. -/
def sortTagItems (t : Dict String Nat) : List (String × Nat) :=
  List.insertionSort tagItemLe t

/-- `sorted(combo_counts.items())`. -/
def sortComboItems (c : Dict (Int × String) Nat) : List ((Int × String) × Nat) :=
  List.insertionSort comboItemLe c

/-- One data row `f"{tag},{count}"` of the first report section. -/
def tagRow (p : String × Nat) : String := p.1 ++ "," ++ toString p.2

/-- One data row `f"{port},{protocol},{count}"` of the second report
section. -/
def comboRow (p : (Int × String) × Nat) : String :=
  toString p.1.1 ++ "," ++ p.1.2 ++ "," ++ toString p.2

/-- Concatenation of a list of lines, each terminated by a newline. -/
def joinLines : List String → String
  | [] => ""
  | l :: ls => l ++ "\n" ++ joinLines ls

/-- `FlowLogAnalyzer.write_results`, as the text written to the output
file: the sequence of `f.write` calls, with `sorted` realised by insertion
sort under the tuple orders above (any sorted permutation is unique, so
this is exactly CPython's result). -/
def writeResults (t : Dict String Nat) (c : Dict (Int × String) Nat) : String :=
  "Tag Counts:\n" ++ "Tag,Count\n" ++
    joinLines ((sortTagItems t).map tagRow) ++
    "\nPort/Protocol Combination Counts:\n" ++ "Port,Protocol,Count\n" ++
    joinLines ((sortComboItems c).map comboRow)

/-! ### Basic lemmas about the dictionary model -/

deriving instance DecidableEq for Except

theorem dget_dset_self {κ ν : Type} [DecidableEq κ] (d : Dict κ ν) (k : κ) (v : ν) :
    dget (dset d k v) k = some v := by
  induction d with
  | nil => simp [dget, dset]
  | cons p rest ih =>
    obtain ⟨k1, v1⟩ := p
    by_cases h : k = k1
    · subst h; simp [dget, dset]
    · simp [dget, dset, h, ih]

theorem dget_dset_ne {κ ν : Type} [DecidableEq κ] (d : Dict κ ν) {k k' : κ} (v : ν)
    (h : k' ≠ k) : dget (dset d k v) k' = dget d k' := by
  induction d with
  | nil => simp [dget, dset, h]
  | cons p rest ih =>
    obtain ⟨k1, v1⟩ := p
    by_cases h1 : k = k1
    · subst h1; simp [dget, dset, h]
    · by_cases h2 : k' = k1 <;> simp [dget, dset, h1, h2, ih]

theorem dget_dincr_self {κ : Type} [DecidableEq κ] (d : Dict κ Nat) (k : κ) :
    dget (dincr d k) k = some ((dget d k).getD 0 + 1) := by
  induction d with
  | nil => simp [dget, dincr]
  | cons p rest ih =>
    obtain ⟨k1, v1⟩ := p
    by_cases h : k = k1
    · subst h; simp [dget, dincr]
    · simp [dget, dincr, h, ih]

theorem dget_dincr_ne {κ : Type} [DecidableEq κ] (d : Dict κ Nat) {k k' : κ}
    (h : k' ≠ k) : dget (dincr d k) k' = dget d k' := by
  induction d with
  | nil => simp [dget, dincr, h]
  | cons p rest ih =>
    obtain ⟨k1, v1⟩ := p
    by_cases h1 : k = k1
    · subst h1; simp [dget, dincr, h]
    · by_cases h2 : k' = k1 <;> simp [dget, dincr, h1, h2, ih]

theorem dsum_dincr {κ : Type} [DecidableEq κ] (d : Dict κ Nat) (k : κ) :
    dsum (dincr d k) = dsum d + 1 := by
  induction d with
  | nil => simp [dsum, dincr]
  | cons p rest ih =>
    obtain ⟨k1, v1⟩ := p
    by_cases h : k = k1
    · subst h; simp [dsum, dincr]; omega
    · simp [dsum, dincr, h] at ih ⊢; omega

/-! ### Lemmas about the ASCII fragment of `str.lower` -/

theorem toNat_ofNat_of_lt (n : Nat) (h : n < 55296) : (Char.ofNat n).toNat = n := by
  have hv : n.isValidChar := Or.inl h
  unfold Char.ofNat
  split
  · rfl
  · exact absurd hv (by assumption)

theorem lowerChar_toNat_of_upper {c : Char} (h : 65 ≤ c.toNat ∧ c.toNat ≤ 90) :
    (lowerChar c).toNat = c.toNat + 32 := by
  unfold lowerChar
  rw [if_pos h]
  exact toNat_ofNat_of_lt _ (by omega)

theorem lowerChar_of_not_upper {c : Char} (h : ¬ (65 ≤ c.toNat ∧ c.toNat ≤ 90)) :
    lowerChar c = c := by
  unfold lowerChar
  rw [if_neg h]

theorem lowerChar_idem (c : Char) : lowerChar (lowerChar c) = lowerChar c := by
  by_cases h : 65 ≤ c.toNat ∧ c.toNat ≤ 90
  · apply lowerChar_of_not_upper
    rw [lowerChar_toNat_of_upper h]
    omega
  · rw [lowerChar_of_not_upper h]
    exact lowerChar_of_not_upper h

theorem map_lowerChar_idem (l : List Char) :
    (l.map lowerChar).map lowerChar = l.map lowerChar := by
  induction l with
  | nil => rfl
  | cons c cs ih => simp [ih, lowerChar_idem]

theorem pyLower_idem (s : String) : pyLower (pyLower s) = pyLower s :=
  congrArg String.mk (map_lowerChar_idem s.data)

theorem lowerChar_of_digit {c : Char} (h : (48 ≤ c.toNat && c.toNat ≤ 57) = true) :
    lowerChar c = c := by
  simp at h
  exact lowerChar_of_not_upper (by omega)

theorem map_lowerChar_of_digits :
    ∀ l : List Char, (∀ c ∈ l, (48 ≤ c.toNat && c.toNat ≤ 57) = true) →
      l.map lowerChar = l := by
  intro l
  induction l with
  | nil => intro _; rfl
  | cons c cs ih =>
    intro hall
    simp only [List.map_cons]
    rw [lowerChar_of_digit (hall c (by simp)), ih (fun x hx => hall x (by simp [hx]))]

theorem pyLower_of_isDigit {s : String} (h : pyIsDigit s = true) : pyLower s = s := by
  have hall : ∀ c ∈ s.data, (48 ≤ c.toNat && c.toNat ≤ 57) = true := by
    have := (Bool.and_eq_true _ _).mp h
    exact fun c hc => List.all_eq_true.mp this.2 c hc
  calc pyLower s = ⟨s.data⟩ := congrArg String.mk (map_lowerChar_of_digits s.data hall)
    _ = s := rfl

/-! ### Lemmas about protocol normalization -/

theorem normalizeProtocol_pyLower (pm : Dict String String) (t : String) :
    normalizeProtocol pm (pyLower t) = normalizeProtocol pm t := by
  unfold normalizeProtocol
  rw [pyLower_idem]

theorem normalizeProtocol_of_none {pm : Dict String String} {t : String}
    (h : dget pm (pyLower t) = none) : normalizeProtocol pm t = pyLower t := by
  unfold normalizeProtocol
  rw [h]
  rfl

theorem normalizeProtocol_of_some {pm : Dict String String} {t v : String}
    (h : dget pm (pyLower t) = some v) : normalizeProtocol pm t = v := by
  unfold normalizeProtocol
  rw [h]
  rfl

theorem dget_default_eq_some {s v : String}
    (h : dget DEFAULT_PROTOCOL_MAP s = some v) :
    v = "tcp" ∨ v = "udp" ∨ v = "icmp" := by
  simp only [DEFAULT_PROTOCOL_MAP, dget] at h
  split_ifs at h <;> simp_all

theorem normalizeProtocol_lower_closed {pm : Dict String String} (t : String)
    (h : ∀ k v, dget pm k = some v → pyLower v = v) :
    pyLower (normalizeProtocol pm t) = normalizeProtocol pm t := by
  cases hd : dget pm (pyLower t) with
  | none => rw [normalizeProtocol_of_none hd]; exact pyLower_idem t
  | some v => rw [normalizeProtocol_of_some hd]; exact h _ _ hd

theorem default_map_values_lower :
    ∀ k v, dget DEFAULT_PROTOCOL_MAP k = some v → pyLower v = v := by
  intro k v h
  rcases dget_default_eq_some h with h1 | h1 | h1 <;> subst h1 <;> decide

theorem normalizeProtocol_default_idem (t : String) :
    normalizeProtocol DEFAULT_PROTOCOL_MAP (normalizeProtocol DEFAULT_PROTOCOL_MAP t) =
      normalizeProtocol DEFAULT_PROTOCOL_MAP t := by
  cases hd : dget DEFAULT_PROTOCOL_MAP (pyLower t) with
  | none =>
    rw [normalizeProtocol_of_none hd]
    rw [← pyLower_idem t] at hd
    rw [normalizeProtocol_of_none hd, pyLower_idem]
  | some v =>
    rw [normalizeProtocol_of_some hd]
    rcases dget_default_eq_some hd with h1 | h1 | h1 <;> subst h1 <;> decide

/-! ### Lemmas about the aggregation loop -/

/-- Whether the parser accepted the line. -/
def isOkB {ε α : Type} : Except ε α → Bool
  | Except.ok _ => true
  | Except.error _ => false

/-- The combo-counter key contributed by a line (`none` when skipped). -/
def keyCombo (pm : Dict String String) (line : String) : Option (Int × String) :=
  (parseFlowLogLine pm line).toOption

/-- The tag-counter key contributed by a line (`none` when skipped). -/
def keyTag (pm : Dict String String) (tm : Dict (Int × String) String)
    (line : String) : Option String :=
  (keyCombo pm line).map (classify tm)

/-- One counter update: bump the key contributed by `a`, if any. -/
def bump {α κ : Type} [DecidableEq κ] (f : α → Option κ) (d : Dict κ Nat) (a : α) :
    Dict κ Nat :=
  match f a with
  | none => d
  | some k => dincr d k

theorem analyzeStep_eq_bump (pm : Dict String String) (tm : Dict (Int × String) String)
    (st : Dict String Nat × Dict (Int × String) Nat) (line : String) :
    analyzeStep pm tm st line =
      (bump (keyTag pm tm) st.1 line, bump (keyCombo pm) st.2 line) := by
  unfold analyzeStep bump keyTag keyCombo classify
  cases parseFlowLogLine pm line <;> simp [Except.toOption]

theorem foldl_analyzeStep (pm : Dict String String) (tm : Dict (Int × String) String) :
    ∀ (lines : List String) (t0 : Dict String Nat) (c0 : Dict (Int × String) Nat),
      lines.foldl (analyzeStep pm tm) (t0, c0) =
        (lines.foldl (bump (keyTag pm tm)) t0, lines.foldl (bump (keyCombo pm)) c0) := by
  intro lines
  induction lines with
  | nil => intro t0 c0; rfl
  | cons l ls ih =>
    intro t0 c0
    simp only [List.foldl_cons]
    rw [analyzeStep_eq_bump, ih]

theorem analyzeLogs_eq_bumps (pm : Dict String String) (tm : Dict (Int × String) String)
    (lines : List String) :
    analyzeLogs pm tm lines =
      (lines.foldl (bump (keyTag pm tm)) [], lines.foldl (bump (keyCombo pm)) []) :=
  foldl_analyzeStep pm tm lines [] []

theorem dget_foldl_bump {α κ : Type} [DecidableEq κ] (f : α → Option κ) (k : κ) :
    ∀ (l : List α) (d : Dict κ Nat),
      dget (l.foldl (bump f) d) k =
        (match dget d k with
         | some v => some (v + l.countP (fun a => decide (f a = some k)))
         | none =>
           if l.countP (fun a => decide (f a = some k)) = 0 then none
           else some (l.countP (fun a => decide (f a = some k)))) := by
  intro l
  induction l with
  | nil =>
    intro d
    cases hd : dget d k <;> simp [hd]
  | cons a as ih =>
    intro d
    simp only [List.foldl_cons, List.countP_cons]
    cases hf : f a with
    | none =>
      have hb : bump f d a = d := by unfold bump; rw [hf]
      have hpa : (decide (f a = some k)) = false := by simp [hf]
      rw [hb, ih]
      cases hd : dget d k <;> simp [hd, hpa]
    | some k' =>
      have hb : bump f d a = dincr d k' := by unfold bump; rw [hf]
      by_cases hk : k' = k
      · subst hk
        have hpa : (decide (f a = some k')) = true := by simp [hf]
        rw [hb, ih, dget_dincr_self]
        cases hd : dget d k' <;> simp [hd, hpa] <;> omega
      · have hne : k ≠ k' := fun h => hk h.symm
        have hpa : (decide (f a = some k)) = false := by simp [hf, hk]
        rw [hb, ih, dget_dincr_ne d hne]
        cases hd : dget d k <;> simp [hd, hpa, hk]

theorem dsum_foldl_bump {α κ : Type} [DecidableEq κ] (f : α → Option κ) :
    ∀ (l : List α) (d : Dict κ Nat),
      dsum (l.foldl (bump f) d) = dsum d + l.countP (fun a => (f a).isSome) := by
  intro l
  induction l with
  | nil => intro d; simp
  | cons a as ih =>
    intro d
    simp only [List.foldl_cons, List.countP_cons]
    cases hf : f a with
    | none =>
      have hb : bump f d a = d := by unfold bump; rw [hf]
      rw [hb, ih]
      simp [hf]
    | some k' =>
      have hb : bump f d a = dincr d k' := by unfold bump; rw [hf]
      rw [hb, ih, dsum_dincr]
      simp [hf]
      omega

theorem keyTag_isSome (pm : Dict String String) (tm : Dict (Int × String) String)
    (line : String) :
    (keyTag pm tm line).isSome = isOkB (parseFlowLogLine pm line) := by
  unfold keyTag keyCombo isOkB
  cases parseFlowLogLine pm line <;> simp [Except.toOption]

theorem keyCombo_isSome (pm : Dict String String) (line : String) :
    (keyCombo pm line).isSome = isOkB (parseFlowLogLine pm line) := by
  unfold keyCombo isOkB
  cases parseFlowLogLine pm line <;> simp [Except.toOption]

/-! ### The report orders are total, transitive, antisymmetric -/

instance : IsTotal (String × Nat) tagItemLe :=
  ⟨fun a b => le_total (tagProj a) (tagProj b)⟩

instance : IsTrans (String × Nat) tagItemLe :=
  ⟨fun _ _ _ h1 h2 => le_trans (α := Lex (String × Nat)) h1 h2⟩

theorem tagProj_injective : Function.Injective tagProj := by
  intro a b h
  exact toLex_inj.mp h

instance : IsAntisymm (String × Nat) tagItemLe :=
  ⟨fun _ _ h1 h2 => tagProj_injective (le_antisymm h1 h2)⟩

instance : IsTotal ((Int × String) × Nat) comboItemLe :=
  ⟨fun a b => le_total (comboProj a) (comboProj b)⟩

instance : IsTrans ((Int × String) × Nat) comboItemLe :=
  ⟨fun _ _ _ h1 h2 => le_trans (α := Lex (Lex (Int × String) × Nat)) h1 h2⟩

theorem comboProj_injective : Function.Injective comboProj := by
  intro a b h
  have h1 : (toLex a.1, a.2) = (toLex b.1, b.2) := toLex_inj.mp h
  have h2 : toLex a.1 = toLex b.1 := congrArg Prod.fst h1
  exact Prod.ext (toLex_inj.mp h2) (congrArg Prod.snd h1)

instance : IsAntisymm ((Int × String) × Nat) comboItemLe :=
  ⟨fun _ _ h1 h2 => comboProj_injective (le_antisymm h1 h2)⟩

/-- The tag-section order spelled out: Python compares the `(tag, count)`
tuples lexicographically. -/
theorem tagItemLe_iff (a b : String × Nat) :
    tagItemLe a b ↔ a.1 < b.1 ∨ (a.1 = b.1 ∧ a.2 ≤ b.2) := by
  unfold tagItemLe pullbackLe tagProj
  exact Prod.Lex.le_iff a b

/-- The combo-section order spelled out: port ascending, then protocol,
then count. -/
theorem comboItemLe_iff (a b : (Int × String) × Nat) :
    comboItemLe a b ↔
      a.1.1 < b.1.1 ∨ (a.1.1 = b.1.1 ∧
        (a.1.2 < b.1.2 ∨ (a.1.2 = b.1.2 ∧ a.2 ≤ b.2))) := by
  unfold comboItemLe pullbackLe comboProj
  rw [Prod.Lex.le_iff]
  constructor
  · rintro (h | ⟨h1, h2⟩)
    · rcases (Prod.Lex.lt_iff _ _).mp h with h' | ⟨h1', h2'⟩
      · exact Or.inl h'
      · exact Or.inr ⟨h1', Or.inl h2'⟩
    · have h1' : a.1 = b.1 := toLex_inj.mp h1
      exact Or.inr ⟨congrArg Prod.fst h1', Or.inr ⟨congrArg Prod.snd h1', h2⟩⟩
  · rintro (h | ⟨h1, h2 | ⟨h2, h3⟩⟩)
    · exact Or.inl ((Prod.Lex.lt_iff _ _).mpr (Or.inl h))
    · exact Or.inl ((Prod.Lex.lt_iff _ _).mpr (Or.inr ⟨h1, h2⟩))
    · exact Or.inr ⟨toLex_inj.mpr (Prod.ext h1 h2), h3⟩

/-! ### Lemmas about loading the two tables -/

/-- The (port, protocol) key a lookup row normalizes to, when its port
parses. -/
def rowKey (pm : Dict String String) (r : LookupRow) : Option (Int × String) :=
  (pyInt r.dstport).map (fun port => (port, normalizeProtocol pm r.protocol))

theorem loadLookupFile_last_wins_aux (pm : Dict String String) (k : Int × String) :
    ∀ (rows : List LookupRow) (m0 m : Dict (Int × String) String),
      loadLookupFile pm rows m0 = Except.ok m →
      dget m k =
        (match rows.reverse.find? (fun r => decide (rowKey pm r = some k)) with
         | some r => some r.tag
         | none => dget m0 k) := by
  intro rows
  induction rows with
  | nil =>
    intro m0 m h
    cases h
    rfl
  | cons r rs ih =>
    intro m0 m h
    unfold loadLookupFile at h
    cases hp : pyInt r.dstport with
    | none => rw [hp] at h; cases h
    | some port =>
      rw [hp] at h
      have hkey : rowKey pm r = some (port, normalizeProtocol pm r.protocol) := by
        unfold rowKey
        rw [hp]
        rfl
      rw [ih _ _ h]
      simp only [List.reverse_cons, List.find?_append]
      cases hfind : rs.reverse.find? (fun r => decide (rowKey pm r = some k)) with
      | some r' => simp
      | none =>
        simp only [Option.none_orElse]
        by_cases hk : (port, normalizeProtocol pm r.protocol) = k
        · subst hk
          simp [List.find?, hkey, dget_dset_self]
        · have : (decide (rowKey pm r = some k)) = false := by
            simp [hkey]
            exact hk
          simp [List.find?, this, dget_dset_ne _ _ (fun h' => hk h'.symm)]

/-- Each row of a successfully parsed protocol file became exactly the two
bindings number→name and name→name, written in that order into a map that
started empty. -/
theorem loadProtocolMappings_ok_bindings (rows : List ProtoRow) :
    ∀ (k v : String),
      dget (loadProtocolMappings (some (Except.ok rows))) k = some v →
      ∃ r ∈ rows, (k = r.protocol_number ∨ k = r.protocol_name) ∧ v = r.protocol_name := by
  have general :
      ∀ (rs : List ProtoRow) (m0 : Dict String String) (k v : String),
        dget (rs.foldl (fun m r => dset (dset m r.protocol_number r.protocol_name)
          r.protocol_name r.protocol_name) m0) k = some v →
        (∃ r ∈ rs, (k = r.protocol_number ∨ k = r.protocol_name) ∧ v = r.protocol_name) ∨
          dget m0 k = some v := by
    intro rs
    induction rs with
    | nil => intro m0 k v h; exact Or.inr h
    | cons r rest ih =>
      intro m0 k v h
      simp only [List.foldl_cons] at h
      rcases ih _ k v h with ⟨r', hr', hcase⟩ | hbase
      · exact Or.inl ⟨r', List.mem_cons_of_mem _ hr', hcase⟩
      · by_cases h1 : k = r.protocol_name
        · subst h1
          rw [dget_dset_self] at hbase
          exact Or.inl ⟨r, List.mem_cons_self _ _, Or.inr rfl, (Option.some.injEq _ _).mp hbase.symm⟩
        · rw [dget_dset_ne _ _ h1] at hbase
          by_cases h2 : k = r.protocol_number
          · subst h2
            rw [dget_dset_self] at hbase
            exact Or.inl ⟨r, List.mem_cons_self _ _, Or.inl rfl, (Option.some.injEq _ _).mp hbase.symm⟩
          · rw [dget_dset_ne _ _ h2] at hbase
            exact Or.inr hbase
  intro k v h
  rcases general rows [] k v h with hgood | hbase
  · exact hgood
  · cases hbase

/-- A key is present in a successfully loaded protocol map exactly when
some row mentions it (as its number or as its name): the built-in defaults
are replaced, not merged. -/
theorem loadProtocolMappings_ok_keys (rows : List ProtoRow) (k : String) :
    (dget (loadProtocolMappings (some (Except.ok rows))) k).isSome ↔
      ∃ r ∈ rows, k = r.protocol_number ∨ k = r.protocol_name := by
  constructor
  · intro h
    obtain ⟨v, hv⟩ := Option.isSome_iff_exists.mp h
    obtain ⟨r, hr, hcase, _⟩ := loadProtocolMappings_ok_bindings rows k v hv
    exact ⟨r, hr, hcase⟩
  · intro ⟨r, hr, hcase⟩
    have general :
        ∀ (rs : List ProtoRow) (m0 : Dict String String),
          (∃ r ∈ rs, k = r.protocol_number ∨ k = r.protocol_name) ∨ (dget m0 k).isSome →
          (dget (rs.foldl (fun m r => dset (dset m r.protocol_number r.protocol_name)
            r.protocol_name r.protocol_name) m0) k).isSome := by
      intro rs
      induction rs with
      | nil =>
        intro m0 h
        rcases h with ⟨_, hmem, _⟩ | h
        · cases hmem
        · exact h
      | cons r0 rest ih =>
        intro m0 h
        simp only [List.foldl_cons]
        apply ih
        rcases h with ⟨r', hmem, hcase'⟩ | h
        · rcases List.mem_cons.mp hmem with heq | hmem'
          · subst heq
            right
            rcases hcase' with h' | h'
            · subst h'
              by_cases hsame : r'.protocol_number = r'.protocol_name
              · rw [hsame, dget_dset_self]; rfl
              · rw [dget_dset_ne _ _ hsame, dget_dset_self]; rfl
            · subst h'
              rw [dget_dset_self]; rfl
          · exact Or.inl ⟨r', hmem', hcase'⟩
        · right
          by_cases h1 : k = r0.protocol_name
          · subst h1; rw [dget_dset_self]; rfl
          · rw [dget_dset_ne _ _ h1]
            by_cases h2 : k = r0.protocol_number
            · subst h2; rw [dget_dset_self]; rfl
            · rw [dget_dset_ne _ _ h2]; exact h
    exact general rows [] (Or.inl ⟨r, hr, hcase⟩)

/-! ### Claim C1 -/

/-- Claim C1 (code bug): `_parse_flow_log_line` is supposed to accept a
protocol token that is a recognized protocol name of the built-in set, but
the source tests `protocol.lower() not in self.DEFAULT_PROTOCOL_MAP`, a
membership test on the dictionary's keys (`"6"`, `"17"`, `"1"`), not on
its names.  An otherwise fully valid line whose protocol token is `"tcp"`
is therefore rejected with `Unsupported protocol`, although `"tcp"` is a
value of the built-in map and the same line with token `"6"` is accepted
and normalizes to `"tcp"`. -/
theorem parse_rejects_builtin_protocol_name :
    parseFlowLogLine DEFAULT_PROTOCOL_MAP
        "2 123456789012 eni-0a1b2c3d 10.0.1.201 198.51.100.2 49153 443 tcp 25 20000 1620140761 1620140821 ACCEPT OK" =
      Except.error "Invalid field value: Unsupported protocol: tcp"
    ∧ parseFlowLogLine DEFAULT_PROTOCOL_MAP
        "2 123456789012 eni-0a1b2c3d 10.0.1.201 198.51.100.2 49153 443 6 25 20000 1620140761 1620140821 ACCEPT OK" =
      Except.ok (443, "tcp")
    ∧ (DEFAULT_PROTOCOL_MAP.map Prod.snd).contains "tcp" = true :=
  ⟨by decide, by decide, by decide⟩

/-! ### Claim C2 -/

/-- Claim C2: a line on which parsing fails leaves both counters unchanged,
and the total of the tag counter equals the total of the combo counter
equals the number of successfully parsed lines. -/
theorem analyzeLogs_totals (pm : Dict String String)
    (tm : Dict (Int × String) String) (lines : List String) :
    (∀ (st : Dict String Nat × Dict (Int × String) Nat) (line e : String),
        parseFlowLogLine pm line = Except.error e → analyzeStep pm tm st line = st)
    ∧ dsum (analyzeLogs pm tm lines).1 =
        lines.countP (fun l => isOkB (parseFlowLogLine pm l))
    ∧ dsum (analyzeLogs pm tm lines).2 =
        lines.countP (fun l => isOkB (parseFlowLogLine pm l)) := by
  refine ⟨?_, ?_, ?_⟩
  · intro st line e h
    unfold analyzeStep
    rw [h]
  · rw [analyzeLogs_eq_bumps]
    simp only []
    rw [dsum_foldl_bump]
    have he : (fun l => (keyTag pm tm l).isSome) =
        (fun l => isOkB (parseFlowLogLine pm l)) :=
      funext (keyTag_isSome pm tm)
    rw [he]
    simp [dsum]
  · rw [analyzeLogs_eq_bumps]
    simp only []
    rw [dsum_foldl_bump]
    have he : (fun l => (keyCombo pm l).isSome) =
        (fun l => isOkB (parseFlowLogLine pm l)) :=
      funext (keyCombo_isSome pm)
    rw [he]
    simp [dsum]

/-- Witness for claim C2: the empty line fails to parse and leaves a
concrete state untouched. -/
theorem analyzeLogs_totals_witness :
    parseFlowLogLine DEFAULT_PROTOCOL_MAP "" =
      Except.error "Line has insufficient fields: 0, minimum required: 14"
    ∧ analyzeStep DEFAULT_PROTOCOL_MAP [] ([("Untagged", 1)], []) "" =
        ([("Untagged", 1)], []) :=
  ⟨by decide,
    (analyzeLogs_totals DEFAULT_PROTOCOL_MAP [] []).1 ([("Untagged", 1)], []) ""
      "Line has insufficient fields: 0, minimum required: 14" (by decide)⟩

/-! ### Claim C3 -/

/-- Claim C3 counterexample: with an active protocol map loaded from an
external table whose name column is not lowercase, `_normalize_protocol`
returns that name verbatim, so its result is not always lowercase. -/
theorem normalizeProtocol_not_always_lower :
    normalizeProtocol (loadProtocolMappings (some (Except.ok [⟨"6", "TCP"⟩]))) "6" = "TCP"
    ∧ pyLower "TCP" ≠ "TCP" :=
  ⟨by decide, by decide⟩

/-- Claim C3 amended: the lookup is case-insensitive in the token and never
fails — a missing key degrades to the lowercased token itself, a present
key returns the stored name; the result is lowercase whenever every value
of the active map is lowercase, and in particular under the built-in
map. -/
theorem normalizeProtocol_amended (pm : Dict String String) (t : String) :
    normalizeProtocol pm t = normalizeProtocol pm (pyLower t)
    ∧ (dget pm (pyLower t) = none → normalizeProtocol pm t = pyLower t)
    ∧ (∀ v, dget pm (pyLower t) = some v → normalizeProtocol pm t = v)
    ∧ ((∀ k v, dget pm k = some v → pyLower v = v) →
        pyLower (normalizeProtocol pm t) = normalizeProtocol pm t)
    ∧ pyLower (normalizeProtocol DEFAULT_PROTOCOL_MAP t) =
        normalizeProtocol DEFAULT_PROTOCOL_MAP t :=
  ⟨(normalizeProtocol_pyLower pm t).symm,
    fun h => normalizeProtocol_of_none h,
    fun _ h => normalizeProtocol_of_some h,
    fun h => normalizeProtocol_lower_closed t h,
    normalizeProtocol_lower_closed t default_map_values_lower⟩

/-- Witness for claim C3 (amended): under the built-in map the token
`"TCP"` resolves through the stored binding to `"tcp"`. -/
theorem normalizeProtocol_amended_witness :
    dget DEFAULT_PROTOCOL_MAP (pyLower "6") = some "tcp"
    ∧ normalizeProtocol DEFAULT_PROTOCOL_MAP "6" = "tcp" :=
  ⟨by decide,
    (normalizeProtocol_amended DEFAULT_PROTOCOL_MAP "6").2.2.1 "tcp" (by decide)⟩

/-! ### Claim C4 -/

/-- Claim C4: when the lookup table loads successfully, the binding of any
key is the tag of the last source row that normalizes to that key (a
search from the end of the file), regardless of earlier rows. -/
theorem loadLookupFile_last_wins (pm : Dict String String) (rows : List LookupRow)
    (m : Dict (Int × String) String) (k : Int × String)
    (h : loadLookupFile pm rows [] = Except.ok m) :
    dget m k =
      (rows.reverse.find? (fun r => decide (rowKey pm r = some k))).map LookupRow.tag := by
  rw [loadLookupFile_last_wins_aux pm k rows [] m h]
  cases hfind : rows.reverse.find? (fun r => decide (rowKey pm r = some k)) <;>
    simp [dget]

/-- Witness for claim C4: two rows normalizing to the key `(25, "tcp")`
(the second spelled `"TCP"`); the loaded table classifies the key with the
second row's tag. -/
theorem loadLookupFile_last_wins_witness :
    loadLookupFile DEFAULT_PROTOCOL_MAP
        [⟨"25", "tcp", "sv_P1"⟩, ⟨"25", "TCP", "email"⟩] [] =
      Except.ok [((25, "tcp"), "email")]
    ∧ dget ([((25, "tcp"), "email")] : Dict (Int × String) String) (25, "tcp") =
        some "email" := by
  refine ⟨by decide, ?_⟩
  rw [loadLookupFile_last_wins DEFAULT_PROTOCOL_MAP
    [⟨"25", "tcp", "sv_P1"⟩, ⟨"25", "TCP", "email"⟩] _ (25, "tcp") (by decide)]
  decide

/-! ### Claim C5 -/

/-- Claim C5: a protocol file that exists and parses replaces the built-in
map entirely — every binding of the resulting map is one of the two
entries (number→name, name→name) contributed by some row, a key is present
exactly when some row mentions it, and the three defaults survive only if
rows re-create them; a file that exists but fails to parse yields the
built-in map (after a warning), never an error. -/
theorem loadProtocolMappings_replacement :
    (∀ msg : String,
        loadProtocolMappings (some (Except.error msg)) = DEFAULT_PROTOCOL_MAP)
    ∧ (∀ (rows : List ProtoRow) (k : String),
        (dget (loadProtocolMappings (some (Except.ok rows))) k).isSome ↔
          ∃ r ∈ rows, k = r.protocol_number ∨ k = r.protocol_name)
    ∧ (∀ (rows : List ProtoRow) (k v : String),
        dget (loadProtocolMappings (some (Except.ok rows))) k = some v →
          ∃ r ∈ rows, (k = r.protocol_number ∨ k = r.protocol_name) ∧
            v = r.protocol_name) :=
  ⟨fun _ => rfl, loadProtocolMappings_ok_keys, loadProtocolMappings_ok_bindings⟩

/-- Witness for claim C5: a one-row table; the key `"6"` is bound to that
row's name, and the defaults `"17"`/`"1"` are gone. -/
theorem loadProtocolMappings_replacement_witness :
    dget (loadProtocolMappings (some (Except.ok [⟨"6", "tcp"⟩]))) "6" = some "tcp"
    ∧ (∃ r ∈ [(⟨"6", "tcp"⟩ : ProtoRow)],
        ("6" = r.protocol_number ∨ "6" = r.protocol_name) ∧ "tcp" = r.protocol_name)
    ∧ dget (loadProtocolMappings (some (Except.ok [⟨"6", "tcp"⟩]))) "17" = none :=
  ⟨by decide,
    loadProtocolMappings_replacement.2.2 [⟨"6", "tcp"⟩] "6" "tcp" (by decide),
    by decide⟩

/-! ### Claim C7 -/

/-- Claim C7: the final counters do not depend on the order of the input
lines — permuting the lines yields mappings with identical lookups for
every key, because each accepted line contributes an increment of one. -/
theorem analyzeLogs_order_independent (pm : Dict String String)
    (tm : Dict (Int × String) String) (l1 l2 : List String) (hp : l1.Perm l2) :
    (∀ tag : String,
        dget (analyzeLogs pm tm l1).1 tag = dget (analyzeLogs pm tm l2).1 tag)
    ∧ (∀ key : Int × String,
        dget (analyzeLogs pm tm l1).2 key = dget (analyzeLogs pm tm l2).2 key) := by
  constructor
  · intro tag
    simp only [analyzeLogs_eq_bumps]
    rw [dget_foldl_bump, dget_foldl_bump, hp.countP_eq]
  · intro key
    simp only [analyzeLogs_eq_bumps]
    rw [dget_foldl_bump, dget_foldl_bump, hp.countP_eq]

/-- Witness for claim C7: two concrete lines processed in both orders give
the same count for the tag `"Untagged"`. -/
theorem analyzeLogs_order_independent_witness :
    ("2 a b c d e 443 6 f g h i j k" :: "2 a b c d e 23 6 f g h i j k" :: []).Perm
      ("2 a b c d e 23 6 f g h i j k" :: "2 a b c d e 443 6 f g h i j k" :: [])
    ∧ dget (analyzeLogs DEFAULT_PROTOCOL_MAP []
        ["2 a b c d e 443 6 f g h i j k", "2 a b c d e 23 6 f g h i j k"]).1 "Untagged" =
      dget (analyzeLogs DEFAULT_PROTOCOL_MAP []
        ["2 a b c d e 23 6 f g h i j k", "2 a b c d e 443 6 f g h i j k"]).1 "Untagged" :=
  ⟨List.Perm.swap "2 a b c d e 23 6 f g h i j k" "2 a b c d e 443 6 f g h i j k" [],
    (analyzeLogs_order_independent DEFAULT_PROTOCOL_MAP [] _ _
      (List.Perm.swap "2 a b c d e 23 6 f g h i j k" "2 a b c d e 443 6 f g h i j k" [])).1
      "Untagged"⟩

/-! ### Claim C8 -/

/-- Claim C8 counterexample: over a loadable external protocol table the
normalization is not idempotent — with rows `(6, tcp)` and `(tcp, xxx)`
the token `"6"` resolves to `"tcp"`, but resolving `"tcp"` again gives
`"xxx"`. -/
theorem normalizeProtocol_not_idem_general :
    normalizeProtocol (loadProtocolMappings (some (Except.ok [⟨"6", "tcp"⟩, ⟨"tcp", "xxx"⟩])))
        (normalizeProtocol
          (loadProtocolMappings (some (Except.ok [⟨"6", "tcp"⟩, ⟨"tcp", "xxx"⟩]))) "6") ≠
      normalizeProtocol
        (loadProtocolMappings (some (Except.ok [⟨"6", "tcp"⟩, ⟨"tcp", "xxx"⟩]))) "6" := by
  decide

/-- Claim C8 amended: normalization is case-insensitive under every active
map, and idempotent under the built-in default map; under the defaults
`"TCP"`, `"tcp"` and `"6"` all resolve to `"tcp"`. -/
theorem normalizeProtocol_idem_amended :
    (∀ (pm : Dict String String) (t : String),
        normalizeProtocol pm t = normalizeProtocol pm (pyLower t))
    ∧ (∀ t : String,
        normalizeProtocol DEFAULT_PROTOCOL_MAP
            (normalizeProtocol DEFAULT_PROTOCOL_MAP t) =
          normalizeProtocol DEFAULT_PROTOCOL_MAP t)
    ∧ normalizeProtocol DEFAULT_PROTOCOL_MAP "TCP" = "tcp"
    ∧ normalizeProtocol DEFAULT_PROTOCOL_MAP "tcp" = "tcp"
    ∧ normalizeProtocol DEFAULT_PROTOCOL_MAP "6" = "tcp" :=
  ⟨fun pm t => (normalizeProtocol_pyLower pm t).symm,
    normalizeProtocol_default_idem, by decide, by decide, by decide⟩

/-! ### Claim C9 -/

/-- Claim C9: every binding present in either returned counter has a count
of at least one — keys are created only at their first increment. -/
theorem analyzeLogs_counts_positive (pm : Dict String String)
    (tm : Dict (Int × String) String) (lines : List String) :
    (∀ (tag : String) (v : Nat),
        dget (analyzeLogs pm tm lines).1 tag = some v → 1 ≤ v)
    ∧ (∀ (key : Int × String) (v : Nat),
        dget (analyzeLogs pm tm lines).2 key = some v → 1 ≤ v) := by
  constructor
  · intro tag v h
    simp only [analyzeLogs_eq_bumps] at h
    rw [dget_foldl_bump] at h
    simp only [dget] at h
    by_cases h0 : lines.countP (fun a => decide (keyTag pm tm a = some tag)) = 0
    · rw [if_pos h0] at h
      cases h
    · rw [if_neg h0] at h
      cases h
      omega
  · intro key v h
    simp only [analyzeLogs_eq_bumps] at h
    rw [dget_foldl_bump] at h
    simp only [dget] at h
    by_cases h0 : lines.countP (fun a => decide (keyCombo pm a = some key)) = 0
    · rw [if_pos h0] at h
      cases h
    · rw [if_neg h0] at h
      cases h
      omega

/-- Witness for claim C9: one accepted line yields the concrete binding
`"Untagged" ↦ 1`, and the theorem recovers `1 ≤ 1` from it. -/
theorem analyzeLogs_counts_positive_witness :
    dget (analyzeLogs DEFAULT_PROTOCOL_MAP [] ["2 a b c d e 443 6 f g h i j k"]).1
        "Untagged" = some 1
    ∧ 1 ≤ 1 :=
  ⟨by decide,
    (analyzeLogs_counts_positive DEFAULT_PROTOCOL_MAP []
      ["2 a b c d e 443 6 f g h i j k"]).1 "Untagged" 1 (by decide)⟩

/-! ### Claim C10 -/

/-- Claim C10: an all-digit protocol token that is not a key of the active
protocol map passes validation and flows through normalization unchanged,
so the record is counted under the numeric token itself. -/
theorem parse_numeric_passthrough (pm : Dict String String)
    (tm : Dict (Int × String) String) (line : String) (p : Int)
    (h14 : MIN_FIELDS ≤ (splitWs line).length)
    (hver : (splitWs line).getD 0 "" = "2")
    (hport : pyInt ((splitWs line).getD 6 "") = some p)
    (hlo : 0 ≤ p) (hhi : p ≤ 65535)
    (hdig : pyIsDigit ((splitWs line).getD 7 "") = true)
    (hkey : dget pm ((splitWs line).getD 7 "") = none) :
    parseFlowLogLine pm line = Except.ok (p, (splitWs line).getD 7 "")
    ∧ dget (analyzeLogs pm tm [line]).2 (p, (splitWs line).getD 7 "") = some 1 := by
  have hA : ¬ ((splitWs line).length < MIN_FIELDS) := by omega
  have hB : ¬ ((splitWs line).getD 0 "" ≠ "2") := fun hne => hne hver
  have hC : ¬ (p < 0 ∨ 65535 < p) := by omega
  have hD : ¬ (¬ (pyIsDigit ((splitWs line).getD 7 "") = true) ∧
      dget DEFAULT_PROTOCOL_MAP (pyLower ((splitWs line).getD 7 "")) = none) :=
    fun hand => hand.1 hdig
  have hnorm : normalizeProtocol pm ((splitWs line).getD 7 "") =
      (splitWs line).getD 7 "" := by
    have hk' : dget pm (pyLower ((splitWs line).getD 7 "")) = none := by
      rw [pyLower_of_isDigit hdig]
      exact hkey
    rw [normalizeProtocol_of_none hk', pyLower_of_isDigit hdig]
  have hparse : parseFlowLogLine pm line = Except.ok (p, (splitWs line).getD 7 "") := by
    unfold parseFlowLogLine
    simp only [hport]
    rw [if_neg hA, if_neg hB, if_neg hC, if_neg hD, hnorm]
  refine ⟨hparse, ?_⟩
  simp [analyzeLogs, analyzeStep, hparse, dincr, dget]

/-- Witness for claim C10: the token `"99"` is all digits and absent from
the built-in map; the line is accepted and counted under `(443, "99")`. -/
theorem parse_numeric_passthrough_witness :
    parseFlowLogLine DEFAULT_PROTOCOL_MAP "2 a b c d e 443 99 f g h i j k" =
      Except.ok (443, "99")
    ∧ dget (analyzeLogs DEFAULT_PROTOCOL_MAP [] ["2 a b c d e 443 99 f g h i j k"]).2
        (443, "99") = some 1 := by
  have h := parse_numeric_passthrough DEFAULT_PROTOCOL_MAP []
    "2 a b c d e 443 99 f g h i j k" 443 (by decide) (by decide) (by decide)
    (by decide) (by decide) (by decide) (by decide)
  have e : (splitWs "2 a b c d e 443 99 f g h i j k").getD 7 "" = "99" := by decide
  rw [e] at h
  exact h

/-! ### Claim C6 -/

theorem joinLines_append (l1 l2 : List String) :
    joinLines (l1 ++ l2) = joinLines l1 ++ joinLines l2 := by
  induction l1 with
  | nil => simp [joinLines]
  | cons a as ih => simp [joinLines, ih, String.append_assoc]

theorem sortTagItems_eq_of_perm {t1 t2 : Dict String Nat} (h : t1.Perm t2) :
    sortTagItems t1 = sortTagItems t2 :=
  List.eq_of_perm_of_sorted
    ((List.perm_insertionSort _ t1).trans (h.trans (List.perm_insertionSort _ t2).symm))
    (List.sorted_insertionSort _ t1) (List.sorted_insertionSort _ t2)

theorem sortComboItems_eq_of_perm {c1 c2 : Dict (Int × String) Nat} (h : c1.Perm c2) :
    sortComboItems c1 = sortComboItems c2 :=
  List.eq_of_perm_of_sorted
    ((List.perm_insertionSort _ c1).trans (h.trans (List.perm_insertionSort _ c2).symm))
    (List.sorted_insertionSort _ c1) (List.sorted_insertionSort _ c2)

/-- Claim C6: the report is a deterministic function of the two mappings —
the same bindings in any internal order produce byte-identical text — and
its content is the fixed line sequence of the two sections, a header and a
column-header line each, one comma-joined row per entry, the first section
sorted by tag and the second by port then protocol, a single blank line
between the sections and no line after them. -/
theorem writeResults_deterministic_sorted (t1 t2 : Dict String Nat)
    (c1 c2 : Dict (Int × String) Nat) (ht : t1.Perm t2) (hc : c1.Perm c2) :
    writeResults t1 c1 = writeResults t2 c2
    ∧ writeResults t1 c1 =
        joinLines (["Tag Counts:", "Tag,Count"] ++ (sortTagItems t1).map tagRow ++
          [""] ++ ["Port/Protocol Combination Counts:", "Port,Protocol,Count"] ++
          (sortComboItems c1).map comboRow)
    ∧ List.Sorted tagItemLe (sortTagItems t1)
    ∧ List.Sorted comboItemLe (sortComboItems c1)
    ∧ (sortTagItems t1).Perm t1
    ∧ (sortComboItems c1).Perm c1 := by
  refine ⟨?_, ?_, List.sorted_insertionSort _ _, List.sorted_insertionSort _ _,
    List.perm_insertionSort _ _, List.perm_insertionSort _ _⟩
  · unfold writeResults
    rw [sortTagItems_eq_of_perm ht, sortComboItems_eq_of_perm hc]
  · rw [joinLines_append, joinLines_append, joinLines_append, joinLines_append]
    have e1 : joinLines ["Tag Counts:", "Tag,Count"] =
        "Tag Counts:\n" ++ "Tag,Count\n" := by decide
    have e2 : joinLines [""] = "\n" := by decide
    have e3 : joinLines ["Port/Protocol Combination Counts:", "Port,Protocol,Count"] =
        "Port/Protocol Combination Counts:\n" ++ "Port,Protocol,Count\n" := by decide
    have e4 : ("\nPort/Protocol Combination Counts:\n" : String) =
        "\n" ++ "Port/Protocol Combination Counts:\n" := by decide
    rw [e1, e2, e3]
    unfold writeResults
    rw [e4]
    simp [String.append_assoc]

/-- Witness for claim C6: the same two bindings listed in either order
render to the same report text. -/
theorem writeResults_deterministic_witness :
    (([("sv_P2", 1), ("sv_P1", 2)] : Dict String Nat).Perm
      [("sv_P1", 2), ("sv_P2", 1)])
    ∧ writeResults [("sv_P2", 1), ("sv_P1", 2)] [((443, "tcp"), 1)] =
        writeResults [("sv_P1", 2), ("sv_P2", 1)] [((443, "tcp"), 1)] :=
  ⟨List.Perm.swap ("sv_P1", 2) ("sv_P2", 1) [],
    (writeResults_deterministic_sorted [("sv_P2", 1), ("sv_P1", 2)]
      [("sv_P1", 2), ("sv_P2", 1)] [((443, "tcp"), 1)] [((443, "tcp"), 1)]
      (List.Perm.swap ("sv_P1", 2) ("sv_P2", 1) []) (List.Perm.refl _)).1⟩

end FlowLog
